import Mathlib

/-!
Shallow embedding of the inference pipeline of the script
03_website_streamlit.py (Klasifikasi Kostum Tari Jawa Tengah):
configuration constants, the static dance catalog, artifact loading,
class-index mapping, image preprocessing, forward-pass invocation and
result ranking, and the page routing of main around them.

External library calls (PIL, numpy, tensorflow, streamlit, the Python
builtin sorted) are modelled by explicit Lean functions; a raised Python
exception is modelled by Except.error carrying the message.
-/

namespace KostumTari

/-- Constant IMG_SIZE = 224 from the configuration section. -/
def IMG_SIZE : Nat := 224

/-- Constant MODEL_PATH, the single configured model path final_model.h5. -/
def MODEL_PATH : String := "final_model.h5"

/-- Constant CLASS_INDICES_PATH, the configured class mapping path. -/
def CLASS_INDICES_PATH : String := "class_indices.json"

/-- Color mode of a decoded PIL image: grayscale, RGB, or RGBA. -/
inductive ColorMode
  | L
  | RGB
  | RGBA
deriving DecidableEq

/-- Number of interleaved channels a color mode carries. -/
def ColorMode.channels : ColorMode → Nat
  | .L => 1
  | .RGB => 3
  | .RGBA => 4

/-- Modelled external library (PIL): a decoded raster image. Pixels are
stored row-major with interleaved channels; 8-bit images have values in
0..255. -/
structure PILImage where
  mode : ColorMode
  width : Nat
  height : Nat
  pixels : List Nat

/-- Modelled external library (numpy): an n-dimensional array, kept as its
shape together with the row-major flattened data. -/
structure NpArr where
  shape : List Nat
  data : List ℚ

/-- Modelled external library (PIL): Image.resize to width w and height h by
nearest-neighbour sampling, ignoring the aspect ratio; keeps the color mode
and produces exactly h * w * channels pixel values. -/
def PILImage.resize (img : PILImage) (w h : Nat) : PILImage :=
  { mode := img.mode, width := w, height := h,
    pixels := (List.range (h * w * img.mode.channels)).map (fun n =>
      let c := img.mode.channels
      let k := n % c
      let x := (n / c) % w
      let y := n / (c * w)
      img.pixels.getD (((y * img.height / h) * img.width + x * img.width / w) * c + k) 0) }

/-- Modelled external library (numpy): np.array of a PIL image. A grayscale
image yields a 2-D array; RGB yields a 3-D array with last dimension 3;
RGBA a 3-D array with last dimension 4. -/
def toNpArr (img : PILImage) : NpArr :=
  match img.mode with
  | .L =>
    { shape := [img.height, img.width], data := img.pixels.map (fun v : Nat => (v : ℚ)) }
  | .RGB =>
    { shape := [img.height, img.width, 3], data := img.pixels.map (fun v : Nat => (v : ℚ)) }
  | .RGBA =>
    { shape := [img.height, img.width, 4], data := img.pixels.map (fun v : Nat => (v : ℚ)) }

/-- Row-major data effect of the numpy slice a[:, :, :3] on an array whose
last dimension is 4: of every group of four values keep the first three. -/
def dropAlpha : List ℚ → List ℚ
  | a :: b :: c :: _ :: rest => a :: b :: c :: dropAlpha rest
  | _ => []

/-- The numpy slice a[:, :, :3], applied by the source only when the last
dimension equals 4. -/
def sliceLast3 (a : NpArr) : NpArr :=
  { shape := a.shape.dropLast ++ [3], data := dropAlpha a.data }

/-- Embedding of preprocess_image: resize to IMG_SIZE x IMG_SIZE, convert to
an array, cut the fourth (alpha) channel if the last dimension is 4, divide
by 255, and prepend the batch dimension. -/
def preprocess_image (image : PILImage) : NpArr :=
  let img := image.resize IMG_SIZE IMG_SIZE
  let a1 := toNpArr img
  let a2 := if a1.shape.getLast? = some 4 then sliceLast3 a1 else a1
  let a3 : NpArr := { shape := a2.shape, data := a2.data.map (fun v => v / 255) }
  { shape := 1 :: a3.shape, data := a3.data }

/-- Modelled builtin (Python): dict access d[key] on a dict kept in
insertion order as an association list, returning the first binding of the
key; none models a KeyError. -/
def dictGet {α : Type} : List (String × α) → String → Option α
  | [], _ => none
  | (k, v) :: t, a => if a = k then some v else dictGet t a

/-- A loaded model artifact: an opaque forward-pass function from the input
array to a batch of raw output vectors; an error models a raised exception
inside model.predict. -/
structure Model where
  predictFn : NpArr → Except String (List (List ℚ))

/-- One entry of the all_predictions list: the dict with keys class and
confidence built by predict_image. -/
structure Prediction where
  class_name : String
  confidence : ℚ
deriving DecidableEq

/-- Maximum of a list of rationals, when the list is nonempty. -/
def listMaxQ : List ℚ → Option ℚ
  | [] => none
  | x :: xs =>
    match listMaxQ xs with
    | none => some x
    | some m => some (max x m)

/-- Modelled external library (numpy): np.argmax, the index of the first
occurrence of the maximal value (ties go to the lowest index). -/
def npArgmax : List ℚ → Nat
  | [] => 0
  | x :: xs =>
    match listMaxQ xs with
    | none => 0
    | some m => if x < m then npArgmax xs + 1 else 0

/-- The loop of predict_image building all_predictions: for every positional
index and value of the raw vector, index class_keys and then look the key up
in the mapping dict; a missing index or key models the corresponding Python
exception. -/
def buildAll (class_mapping : List (String × String)) :
    List ℚ → Nat → Except String (List Prediction)
  | [], _ => Except.ok []
  | conf :: rest, idx =>
    match (class_mapping.map Prod.fst)[idx]? with
    | none => Except.error "IndexError: list index out of range"
    | some key =>
      match dictGet class_mapping key with
      | none => Except.error "KeyError"
      | some name =>
        match buildAll class_mapping rest (idx + 1) with
        | Except.error e => Except.error e
        | Except.ok tail =>
          Except.ok ({ class_name := name, confidence := conf * 100 } :: tail)

/-- Stable insertion step of a descending sort on confidence: the inserted
element passes exactly the strictly larger confidences, so equal confidences
keep their original relative order. -/
def insertDesc (a : Prediction) : List Prediction → List Prediction
  | [] => [a]
  | b :: l => if b.confidence ≤ a.confidence then a :: b :: l else b :: insertDesc a l

/-- Modelled builtin (Python): sorted with key confidence and reverse set,
which is specified to be a stable descending sort on the key. -/
def sortDesc : List Prediction → List Prediction
  | [] => []
  | a :: l => insertDesc a (sortDesc l)

/-- Embedding of predict_image: preprocess, run the forward pass, take row 0
of the batch, argmax for the top class, map positional indices through the
class mapping, and stably sort all entries by descending confidence.
Except.error models an uncaught Python exception. -/
def predict_image (model : Model) (image : PILImage)
    (class_mapping : List (String × String)) :
    Except String (String × ℚ × List Prediction) :=
  let processed_img := preprocess_image image
  match model.predictFn processed_img with
  | Except.error e => Except.error e
  | Except.ok predictions =>
    match predictions with
    | [] => Except.error "IndexError: list index out of range"
    | p0 :: _ =>
      if p0.isEmpty then
        Except.error "ValueError: attempt to get argmax of an empty sequence"
      else
        let predicted_class_idx := npArgmax p0
        let confidence := p0.getD predicted_class_idx 0 * 100
        match (class_mapping.map Prod.fst)[predicted_class_idx]? with
        | none => Except.error "IndexError: list index out of range"
        | some predicted_class_key =>
          match dictGet class_mapping predicted_class_key with
          | none => Except.error "KeyError"
          | some predicted_class_name =>
            match buildAll class_mapping p0 0 with
            | Except.error e => Except.error e
            | Except.ok all0 =>
              Except.ok (predicted_class_name, confidence, sortDesc all0)

/-- The all_predictions list in positional (mapping iteration) order before
sorting, in the error-free case: entry i pairs the display name at position
i of the mapping with the i-th raw value scaled to a percentage. -/
def positionalPredictions (class_mapping : List (String × String)) :
    List ℚ → Nat → List Prediction
  | [], _ => []
  | conf :: rest, idx =>
    { class_name := (class_mapping.getD idx ("", "")).2, confidence := conf * 100 } ::
      positionalPredictions class_mapping rest (idx + 1)

/-- A streamlit status message emitted by the embedded code. -/
inductive UIMsg
  | error (s : String)
  | warning (s : String)
  | info (s : String)
  | success (s : String)
deriving DecidableEq

/-- A file that may sit at a model path: loadsTo is the artifact it
deserializes to, or none when the file exists but fails to load. -/
structure H5File where
  loadsTo : Option Model

/-- Modelled external library (tensorflow): tf.keras.models.load_model at a
path, over a directory listing of files. -/
def tf_load_model (files : List (String × H5File)) (path : String) : Except String Model :=
  match dictGet files path with
  | none => Except.error ("No file or directory found at " ++ path)
  | some f =>
    match f.loadsTo with
    | none => Except.error "unable to deserialize the model file"
    | some m => Except.ok m

/-- Embedding of load_model: try tf.keras.models.load_model(MODEL_PATH) on
the one configured path; on any exception show an error and an info message
and return None. -/
def load_model (files : List (String × H5File)) : Option Model × List UIMsg :=
  match tf_load_model files MODEL_PATH with
  | Except.ok m => (some m, [])
  | Except.error e =>
    (none,
     [UIMsg.error ("Error loading model: " ++ e),
      UIMsg.info "Pastikan file final_model.keras ada di folder yang sama dengan script ini."])

/-- The built-in default mapping returned when class_indices.json is absent
or unreadable. -/
def default_class_indices : List (String × String) :=
  [("tari_bedhaya", "Tari Bedhaya"),
   ("tari_dolalak", "Tari Dolalak"),
   ("tari_gambyong", "Tari Gambyong"),
   ("tari_golek", "Tari Golek"),
   ("tari_srimpi", "Tari Srimpi")]

/-- State of the class_indices.json file: none when absent, some none when
present but not parseable as JSON, some (some m) when it parses to the
ordered mapping m. -/
abbrev ClassFile := Option (Option (List (String × String)))

/-- Embedding of load_class_indices: read and parse the file; on any
exception silently return the built-in default mapping (the bare except
branch emits no message of any kind). -/
def load_class_indices (file : ClassFile) : List (String × String) × List UIMsg :=
  match file with
  | some (some m) => (m, [])
  | _ => (default_class_indices, [])

/-- A record of the static dance catalog TARI_INFO. -/
structure TariRecord where
  deskripsi : String
  karakteristik : List String
  asal : String
  image : String

/-- Embedding of the static TARI_INFO catalog, keyed by display name, with
the multi-line Python strings collapsed to single lines. -/
def TARI_INFO : List (String × TariRecord) :=
  [("Tari Bedhaya",
    { deskripsi := "Tari Bedhaya adalah tarian sakral dan tertua yang mencerminkan kerumitan budaya keraton Surakarta dan Yogyakarta. Tarian ini memiliki nilai-nilai edukatif religius, sakral, dan etika kesantunan wanita keraton.",
      karakteristik :=
        ["Ditarikan oleh 7-9 penari wanita",
         "Gerakan lemah lembut dan khidmat",
         "Kostum didominasi warna hijau atau biru",
         "Menggunakan kain batik motif parang atau kawung",
         "Aksesoris kepala: mahkota atau jamang"],
      asal := "Keraton Surakarta & Yogyakarta",
      image := "https://via.placeholder.com/400x300?text=Tari+Bedhaya" }),
   ("Tari Srimpi",
    { deskripsi := "Tari Srimpi merupakan tarian putri yang berkarakter lungguh (halus) dan ditarikan secara berkelompok. Sering digunakan untuk menyambut tamu kehormatan di keraton.",
      karakteristik :=
        ["Ditarikan oleh 4 penari wanita",
         "Gerakan anggun dan simetris",
         "Kostum warna-warni cerah (merah, kuning, hijau, biru)",
         "Masing-masing penari mewakili arah mata angin",
         "Menggunakan sampur (selendang)"],
      asal := "Keraton Jawa Tengah",
      image := "https://via.placeholder.com/400x300?text=Tari+Srimpi" }),
   ("Tari Gambyong",
    { deskripsi := "Tari Gambyong awalnya tari tunggal putri, tetapi kini sering ditarikan berkelompok untuk pembukaan acara, penyambutan tamu, atau pertunjukan komersial. Berasal dari tarian rakyat (tledhek).",
      karakteristik :=
        ["Gerakan dinamis dan energik",
         "Kostum didominasi warna cerah (merah, kuning, emas)",
         "Menggunakan sanggul besar dengan bunga melati",
         "Aksesoris berupa kalung, gelang, dan subang",
         "Ekspresi wajah ceria dan sumringah"],
      asal := "Surakarta, Jawa Tengah",
      image := "https://via.placeholder.com/400x300?text=Tari+Gambyong" }),
   ("Tari Golek",
    { deskripsi := "Tari Golek merupakan tarian klasik yang sangat populer, merepresentasikan remaja putri yang sedang dalam masa pencarian jati diri melalui upaya berhias diri.",
      karakteristik :=
        ["Tari tunggal atau berpasangan",
         "Gerakan luwes dan gemulai",
         "Kostum didominasi warna pastel (pink, ungu, hijau muda)",
         "Menggunakan kain batik halus",
         "Properti: kipas atau sampur"],
      asal := "Surakarta, Jawa Tengah",
      image := "https://via.placeholder.com/400x300?text=Tari+Golek" }),
   ("Tari Dolalak",
    { deskripsi := "Tari Dolalak merupakan warisan budaya dari zaman penjajahan Belanda, hasil akulturasi budaya Barat dan Jawa. Tarian ini meniru gerak-gerik serdadu Belanda dengan iringan musik tradisional.",
      karakteristik :=
        ["Ditarikan oleh kelompok (biasanya wanita)",
         "Gerakan menyerupai marcheren tentara",
         "Kostum unik: perpaduan kebaya dan atribut militer",
         "Menggunakan topi (omprok) khas",
         "Gerakan rampak dan dinamis"],
      asal := "Purworejo, Jawa Tengah",
      image := "https://via.placeholder.com/400x300?text=Tari+Dolalak" })]

/-- The sidebar menu entries of main. -/
inductive Menu
  | beranda
  | klasifikasi
  | katalog
  | tentang
deriving DecidableEq

/-- The page that main hands control to after routing. -/
inductive PageAction
  | homePage
  | classifyPage (model : Model) (class_mapping : List (String × String))
  | modelUnavailable (msg : String)
  | catalogPage
  | aboutPage

/-- Embedding of main: load the model and the class mapping once at startup,
emit the sidebar status, and route; the classification page runs only when
the model loaded, otherwise an error page replaces it, while the other pages
stay reachable. -/
def main_route (files : List (String × H5File)) (file : ClassFile) (menu : Menu) :
    List UIMsg × PageAction :=
  let ml := load_model files
  let ci := load_class_indices file
  let sidebar :=
    match ml.1 with
    | some _ =>
      [UIMsg.success "✅ Model: Loaded",
       UIMsg.info ("📦 Classes: " ++ toString ci.1.length)]
    | none =>
      [UIMsg.error "❌ Model: Not Loaded",
       UIMsg.warning "Pastikan file model tersedia"]
  let action :=
    match menu, ml.1 with
    | Menu.beranda, _ => PageAction.homePage
    | Menu.klasifikasi, some m => PageAction.classifyPage m ci.1
    | Menu.klasifikasi, none =>
      PageAction.modelUnavailable "❌ Model tidak dapat dimuat. Pastikan file model tersedia."
    | Menu.katalog, _ => PageAction.catalogPage
    | Menu.tentang, _ => PageAction.aboutPage
  (ml.2 ++ ci.2 ++ sidebar, action)

/-! Concrete test fixtures used to exercise the theorems below. -/

/-- The example raw vector of the specification scenario:
[0.05, 0.10, 0.70, 0.10, 0.05]. -/
def exampleVector : List ℚ := [1/20, 1/10, 7/10, 1/10, 1/20]

/-- A stub artifact whose forward pass returns the example raw vector for
every input. -/
def exampleModel : Model :=
  { predictFn := fun _ => Except.ok [exampleVector] }

/-- The example mapping of the specification scenario. -/
def exampleMapping : List (String × String) :=
  [("a", "Tari Bedhaya"), ("b", "Tari Srimpi"), ("c", "Tari Gambyong"),
   ("d", "Tari Golek"), ("e", "Tari Dolalak")]

/-- A tiny RGB test image. -/
def exampleImage : PILImage :=
  { mode := ColorMode.RGB, width := 2, height := 1, pixels := [10, 20, 30, 40, 50, 60] }

/-- A tiny RGBA test image. -/
def rgbaImage : PILImage :=
  { mode := ColorMode.RGBA, width := 2, height := 1, pixels := [1, 2, 3, 4, 5, 6, 7, 8] }

/-- A concrete grayscale test image. -/
def grayImage : PILImage :=
  { mode := ColorMode.L, width := 5, height := 4, pixels := List.replicate 20 7 }

/-- A second concrete grayscale test image. -/
def grayImage2 : PILImage :=
  { mode := ColorMode.L, width := 3, height := 2, pixels := [0, 50, 100, 150, 200, 255] }

/-- A valid artifact stub for the loader scenarios. -/
def stubModel : Model := { predictFn := fun _ => Except.ok [] }

/-- A directory that contains only the secondary-format file
final_model.keras, holding a perfectly loadable artifact. -/
def kerasOnlyDir : List (String × H5File) :=
  [("final_model.keras", { loadsTo := some stubModel })]

/-- An empty directory: no model file at all. -/
def emptyDir : List (String × H5File) := []

/-- A directory whose final_model.h5 exists but fails to deserialize, next
to a perfectly loadable final_model.keras. -/
def corruptH5Dir : List (String × H5File) :=
  [("final_model.h5", { loadsTo := none }),
   ("final_model.keras", { loadsTo := some stubModel })]

/-- An artifact whose forward pass always raises. -/
def failingModel : Model :=
  { predictFn := fun _ => Except.error "Graph execution error" }

/-! Helper lemmas about the maximum and np.argmax. -/

/-- A nonempty list has a maximum. -/
theorem listMaxQ_isSome (x : ℚ) (xs : List ℚ) : ∃ m, listMaxQ (x :: xs) = some m := by
  unfold listMaxQ
  cases listMaxQ xs <;> exact ⟨_, rfl⟩

/-- Only the empty list has no maximum. -/
theorem listMaxQ_eq_none {l : List ℚ} (h : listMaxQ l = none) : l = [] := by
  cases l with
  | nil => rfl
  | cons x xs =>
    obtain ⟨m, hm⟩ := listMaxQ_isSome x xs
    rw [hm] at h
    exact Option.noConfusion h

/-- Every element is bounded by the maximum. -/
theorem le_listMaxQ {l : List ℚ} {m : ℚ} (h : listMaxQ l = some m) :
    ∀ x ∈ l, x ≤ m := by
  induction l generalizing m with
  | nil => simp [listMaxQ] at h
  | cons a as ih =>
    intro x hx
    rw [List.mem_cons] at hx
    simp only [listMaxQ] at h
    cases hma : listMaxQ as with
    | none =>
      simp only [hma, Option.some.injEq] at h
      subst h
      rcases hx with rfl | hx
      · exact le_refl x
      · rw [listMaxQ_eq_none hma] at hx; cases hx
    | some mm =>
      simp only [hma, Option.some.injEq] at h
      subst h
      rcases hx with rfl | hx
      · exact le_max_left _ _
      · exact le_trans (ih hma x hx) (le_max_right _ _)

/-- The value the list stores at the argmax position is the maximum. -/
theorem getD_npArgmax {l : List ℚ} {m : ℚ} (h : listMaxQ l = some m) :
    l.getD (npArgmax l) 0 = m := by
  induction l generalizing m with
  | nil => simp [listMaxQ] at h
  | cons a as ih =>
    simp only [listMaxQ] at h
    cases hma : listMaxQ as with
    | none =>
      simp only [hma, Option.some.injEq] at h
      subst h
      simp [npArgmax, hma]
    | some mm =>
      simp only [hma, Option.some.injEq] at h
      subst h
      simp only [npArgmax, hma]
      by_cases hlt : a < mm
      · rw [if_pos hlt]
        simp only [List.getD_cons_succ]
        rw [ih hma]
        exact (max_eq_right (le_of_lt hlt)).symm
      · rw [if_neg hlt]
        simp only [List.getD_cons_zero]
        exact (max_eq_left (le_of_not_lt hlt)).symm

/-- The argmax of a nonempty list is a valid index. -/
theorem npArgmax_lt_length {l : List ℚ} (h : l ≠ []) : npArgmax l < l.length := by
  induction l with
  | nil => exact absurd rfl h
  | cons a as ih =>
    cases hma : listMaxQ as with
    | none => simp [npArgmax, hma]
    | some m =>
      simp only [npArgmax, hma]
      by_cases hlt : a < m
      · rw [if_pos hlt]
        have hne : as ≠ [] := by
          intro he
          rw [he] at hma
          simp [listMaxQ] at hma
        have := ih hne
        simp only [List.length_cons]
        omega
      · rw [if_neg hlt]
        simp

/-- Every entry is at most the entry at the argmax position. -/
theorem getD_le_npArgmax {l : List ℚ} (j : Nat) (hj : j < l.length) :
    l.getD j 0 ≤ l.getD (npArgmax l) 0 := by
  have hne : l ≠ [] := by
    intro he
    rw [he] at hj
    simp at hj
  obtain ⟨m, hm⟩ : ∃ m, listMaxQ l = some m := by
    cases l with
    | nil => exact absurd rfl hne
    | cons x xs => exact listMaxQ_isSome x xs
  rw [getD_npArgmax hm]
  refine le_listMaxQ hm _ ?_
  rw [List.getD_eq_getElem l 0 hj]
  exact List.getElem_mem hj

/-- Entries strictly before the argmax position are strictly below the
maximum: the first occurrence of the maximum wins. -/
theorem getD_lt_of_lt_npArgmax {l : List ℚ} (j : Nat) (hj : j < npArgmax l) :
    l.getD j 0 < l.getD (npArgmax l) 0 := by
  induction l generalizing j with
  | nil => simp [npArgmax] at hj
  | cons a as ih =>
    cases hma : listMaxQ as with
    | none =>
      simp only [npArgmax, hma] at hj
      exact absurd hj (Nat.not_lt_zero j)
    | some m =>
      simp only [npArgmax, hma] at hj ⊢
      by_cases hlt : a < m
      · rw [if_pos hlt] at hj ⊢
        cases j with
        | zero =>
          simp only [List.getD_cons_zero, List.getD_cons_succ]
          rw [getD_npArgmax hma]
          exact hlt
        | succ j' =>
          simp only [List.getD_cons_succ]
          exact ih j' (Nat.lt_of_succ_lt_succ hj)
      · rw [if_neg hlt] at hj
        exact absurd hj (Nat.not_lt_zero j)

/-- Among all positions holding the maximal value, the argmax is least. -/
theorem npArgmax_le_of_getD_eq {l : List ℚ} (j : Nat)
    (h : l.getD j 0 = l.getD (npArgmax l) 0) : npArgmax l ≤ j := by
  by_contra hcon
  push_neg at hcon
  exact absurd h (ne_of_lt (getD_lt_of_lt_npArgmax j hcon))

/-! Helper lemmas about dict access on a mapping with unique keys. -/

/-- In a dict whose keys are unique, looking up the key stored at position i
returns the value stored at position i. -/
theorem dictGet_getD_of_nodup (cm : List (String × String))
    (hnd : (cm.map Prod.fst).Nodup) (i : Nat) (hi : i < cm.length) :
    dictGet cm (cm.getD i ("", "")).1 = some (cm.getD i ("", "")).2 := by
  induction cm generalizing i with
  | nil => simp at hi
  | cons e t ih =>
    obtain ⟨k, v⟩ := e
    simp only [List.map_cons, List.nodup_cons] at hnd
    cases i with
    | zero =>
      simp [dictGet]
    | succ i' =>
      simp only [List.getD_cons_succ]
      have hi' : i' < t.length := by
        simp only [List.length_cons] at hi
        omega
      have hkey_mem : (t.getD i' ("", "")).1 ∈ t.map Prod.fst := by
        rw [List.getD_eq_getElem t ("", "") hi']
        exact List.mem_map_of_mem Prod.fst (List.getElem_mem hi')
      have hne : (t.getD i' ("", "")).1 ≠ k := by
        intro he
        exact hnd.1 (he ▸ hkey_mem)
      simp only [dictGet, if_neg hne]
      exact ih hnd.2 i' hi'

/-! Helper lemmas about the stable descending sort. -/

/-- Inserting grows the length by one. -/
theorem length_insertDesc (a : Prediction) (l : List Prediction) :
    (insertDesc a l).length = l.length + 1 := by
  induction l with
  | nil => rfl
  | cons b t ih =>
    simp only [insertDesc]
    by_cases h : b.confidence ≤ a.confidence
    · rw [if_pos h]
      simp
    · rw [if_neg h]
      simp [ih]

/-- Sorting preserves the length. -/
theorem length_sortDesc (l : List Prediction) : (sortDesc l).length = l.length := by
  induction l with
  | nil => rfl
  | cons a t ih =>
    simp [sortDesc, length_insertDesc, ih]

/-- Membership in an insertion. -/
theorem mem_insertDesc {x a : Prediction} {l : List Prediction} :
    x ∈ insertDesc a l ↔ x = a ∨ x ∈ l := by
  induction l with
  | nil => simp [insertDesc]
  | cons b t ih =>
    simp only [insertDesc]
    by_cases h : b.confidence ≤ a.confidence
    · rw [if_pos h]
      simp [List.mem_cons]
    · rw [if_neg h]
      simp [List.mem_cons, ih]
      tauto

/-- Sorting preserves membership. -/
theorem mem_sortDesc {x : Prediction} {l : List Prediction} :
    x ∈ sortDesc l ↔ x ∈ l := by
  induction l with
  | nil => simp [sortDesc]
  | cons a t ih =>
    simp [sortDesc, mem_insertDesc, ih, List.mem_cons]

/-- Inserting into a list sorted by non-increasing confidence keeps it sorted. -/
theorem pairwise_insertDesc {a : Prediction} {l : List Prediction}
    (h : l.Pairwise (fun x y => y.confidence ≤ x.confidence)) :
    (insertDesc a l).Pairwise (fun x y => y.confidence ≤ x.confidence) := by
  induction l with
  | nil => simp [insertDesc]
  | cons b t ih =>
    rw [List.pairwise_cons] at h
    simp only [insertDesc]
    by_cases hb : b.confidence ≤ a.confidence
    · rw [if_pos hb]
      refine List.Pairwise.cons ?_ (List.Pairwise.cons h.1 h.2)
      intro y hy
      rcases List.mem_cons.mp hy with rfl | hy
      · exact hb
      · exact le_trans (h.1 y hy) hb
    · rw [if_neg hb]
      refine List.Pairwise.cons ?_ (ih h.2)
      intro y hy
      rcases mem_insertDesc.mp hy with rfl | hy
      · exact le_of_not_le hb
      · exact h.1 y hy

/-- The sorted list is in non-increasing confidence order. -/
theorem pairwise_sortDesc (l : List Prediction) :
    (sortDesc l).Pairwise (fun x y => y.confidence ≤ x.confidence) := by
  induction l with
  | nil => simp [sortDesc]
  | cons a t ih => exact pairwise_insertDesc ih

/-- Stability of the insertion step: restricted to any one confidence value,
inserting an element of that value puts it first and moves nothing else,
and inserting any other value changes nothing. -/
theorem filter_insertDesc (a : Prediction) (l : List Prediction) (c : ℚ) :
    (insertDesc a l).filter (fun e => decide (e.confidence = c)) =
      if a.confidence = c then
        a :: l.filter (fun e => decide (e.confidence = c))
      else l.filter (fun e => decide (e.confidence = c)) := by
  induction l with
  | nil =>
    by_cases h : a.confidence = c
    · simp [insertDesc, h]
    · simp [insertDesc, h]
  | cons b t ih =>
    simp only [insertDesc]
    by_cases hb : b.confidence ≤ a.confidence
    · rw [if_pos hb]
      by_cases ha : a.confidence = c
      · simp [List.filter_cons, ha]
      · simp [List.filter_cons, ha]
    · rw [if_neg hb]
      by_cases ha : a.confidence = c
      · have hbne : ¬ b.confidence = c := fun he => hb (le_of_eq (he.trans ha.symm))
        simp [List.filter_cons, hbne, ih, ha]
      · simp [List.filter_cons, ih, ha]

/-- Stability of the sort: restricted to any one confidence value, the
sorted list lists exactly the original entries in their original order. -/
theorem filter_sortDesc (l : List Prediction) (c : ℚ) :
    (sortDesc l).filter (fun e => decide (e.confidence = c)) =
      l.filter (fun e => decide (e.confidence = c)) := by
  induction l with
  | nil => rfl
  | cons a t ih =>
    simp only [sortDesc, filter_insertDesc, List.filter_cons]
    by_cases ha : a.confidence = c
    · simp [ha, ih]
    · simp [ha, ih]

/-- Inserting adds the inserted confidence to the total. -/
theorem sum_confidence_insertDesc (a : Prediction) (l : List Prediction) :
    ((insertDesc a l).map Prediction.confidence).sum =
      a.confidence + (l.map Prediction.confidence).sum := by
  induction l with
  | nil => simp [insertDesc]
  | cons b t ih =>
    simp only [insertDesc]
    by_cases hb : b.confidence ≤ a.confidence
    · rw [if_pos hb]
      simp
    · rw [if_neg hb]
      simp [ih]
      ring

/-- Sorting preserves the total confidence. -/
theorem sum_confidence_sortDesc (l : List Prediction) :
    ((sortDesc l).map Prediction.confidence).sum = (l.map Prediction.confidence).sum := by
  induction l with
  | nil => rfl
  | cons a t ih =>
    simp [sortDesc, sum_confidence_insertDesc, ih]

/-! Helper lemmas about the positional prediction list. -/

/-- One positional entry per raw value. -/
theorem length_positionalPredictions (cm : List (String × String)) (p : List ℚ) (i : Nat) :
    (positionalPredictions cm p i).length = p.length := by
  induction p generalizing i with
  | nil => rfl
  | cons c rest ih => simp [positionalPredictions, ih]

/-- Every positional entry scales some raw value by 100. -/
theorem mem_positionalPredictions {cm : List (String × String)} {p : List ℚ} {i : Nat}
    {e : Prediction} (h : e ∈ positionalPredictions cm p i) :
    ∃ c ∈ p, e.confidence = c * 100 := by
  induction p generalizing i with
  | nil => cases h
  | cons c rest ih =>
    simp only [positionalPredictions, List.mem_cons] at h
    rcases h with rfl | h
    · exact ⟨c, List.mem_cons_self _ _, rfl⟩
    · obtain ⟨d, hd, he⟩ := ih h
      exact ⟨d, List.mem_cons_of_mem _ hd, he⟩

/-- The total positional confidence is the raw total scaled by 100. -/
theorem sum_confidence_positionalPredictions (cm : List (String × String))
    (p : List ℚ) (i : Nat) :
    ((positionalPredictions cm p i).map Prediction.confidence).sum = p.sum * 100 := by
  induction p generalizing i with
  | nil => simp [positionalPredictions]
  | cons c rest ih =>
    simp [positionalPredictions, ih]
    ring

/-- When the keys are unique and the raw vector does not outrun the mapping,
the all_predictions loop raises nothing and produces the positional list. -/
theorem buildAll_eq (cm : List (String × String)) (hnd : (cm.map Prod.fst).Nodup) :
    ∀ (p : List ℚ) (i : Nat), i + p.length ≤ cm.length →
      buildAll cm p i = Except.ok (positionalPredictions cm p i) := by
  intro p
  induction p with
  | nil => intro i _; rfl
  | cons c rest ih =>
    intro i hle
    have hi : i < cm.length := by
      simp only [List.length_cons] at hle
      omega
    have hmap_len : i < (cm.map Prod.fst).length := by simpa using hi
    have hkey : (cm.map Prod.fst)[i]? = some (cm.getD i ("", "")).1 := by
      rw [List.getElem?_eq_getElem hmap_len, List.getElem_map,
        List.getD_eq_getElem cm ("", "") hi]
    have hdict := dictGet_getD_of_nodup cm hnd i hi
    have hrest : buildAll cm rest (i + 1) = Except.ok (positionalPredictions cm rest (i + 1)) := by
      refine ih (i + 1) ?_
      simp only [List.length_cons] at hle
      omega
    simp only [buildAll, hkey, hdict, hrest, positionalPredictions]

/-- Unfolding of predict_image in the error-free case: the forward pass
returned a batch with a single nonempty row no longer than the mapping (the
model invariant makes the lengths equal). The top label is the mapping entry
at the argmax position, the top confidence is the argmax value scaled by
100, and the ranked list is the stable descending sort of the positional
list. -/
theorem predict_image_run (model : Model) (image : PILImage)
    (cm : List (String × String)) (p : List ℚ)
    (hnd : (cm.map Prod.fst).Nodup)
    (hpred : model.predictFn (preprocess_image image) = Except.ok [p])
    (hne : p ≠ []) (hlen : p.length ≤ cm.length) :
    predict_image model image cm =
      Except.ok ((cm.getD (npArgmax p) ("", "")).2,
        p.getD (npArgmax p) 0 * 100,
        sortDesc (positionalPredictions cm p 0)) := by
  have hargmax : npArgmax p < p.length := npArgmax_lt_length hne
  have hi : npArgmax p < cm.length := lt_of_lt_of_le hargmax hlen
  have hmap_len : npArgmax p < (cm.map Prod.fst).length := by simpa using hi
  have hkey : (cm.map Prod.fst)[npArgmax p]? = some (cm.getD (npArgmax p) ("", "")).1 := by
    rw [List.getElem?_eq_getElem hmap_len, List.getElem_map,
      List.getD_eq_getElem cm ("", "") hi]
  have hdict := dictGet_getD_of_nodup cm hnd (npArgmax p) hi
  have hbuild : buildAll cm p 0 = Except.ok (positionalPredictions cm p 0) :=
    buildAll_eq cm hnd p 0 (by omega)
  have hempty : p.isEmpty = false := by
    cases p with
    | nil => exact absurd rfl hne
    | cons _ _ => rfl
  have hdict2 : dictGet cm (cm[npArgmax p]?.getD ("", "")).1 =
      some (cm[npArgmax p]?.getD ("", "")).2 := by
    rw [List.getElem?_eq_getElem hi, Option.getD_some, ← List.getD_eq_getElem cm ("", "") hi]
    exact hdict
  simp [predict_image, hpred, hempty, hkey, hbuild, hdict2]

/-! Helper lemmas about preprocessing. -/

/-- Shape of the preprocessed tensor by color mode: a grayscale input keeps
no channel axis, while RGB and RGBA inputs end in 3 channels. -/
theorem preprocess_image_shape (img : PILImage) :
    (preprocess_image img).shape =
      if img.mode = ColorMode.L then [1, IMG_SIZE, IMG_SIZE]
      else [1, IMG_SIZE, IMG_SIZE, 3] := by
  obtain ⟨mode, w, h, px⟩ := img
  cases mode <;> rfl

/-- Indexing with a default yields the default or a member. -/
theorem getD_default_or_mem {α : Type} (l : List α) (k : Nat) (d : α) :
    l.getD k d = d ∨ l.getD k d ∈ l := by
  by_cases hk : k < l.length
  · right
    rw [List.getD_eq_getElem l d hk]
    exact List.getElem_mem hk
  · left
    exact List.getD_eq_default l d (le_of_not_lt hk)

/-- Values produced by the nearest-neighbour resize are the padding default
0 or original pixel values. -/
theorem resize_pixel_mem {img : PILImage} {w h : Nat} {v : Nat}
    (hv : v ∈ (img.resize w h).pixels) : v = 0 ∨ v ∈ img.pixels := by
  simp only [PILImage.resize, List.mem_map] at hv
  obtain ⟨n, -, rfl⟩ := hv
  exact getD_default_or_mem img.pixels _ 0

/-- Dropping the alpha channel only removes values. -/
theorem mem_dropAlpha : ∀ {l : List ℚ} {x : ℚ}, x ∈ dropAlpha l → x ∈ l
  | [], x, h => by simp [dropAlpha] at h
  | [a], x, h => by simp [dropAlpha] at h
  | [a, b], x, h => by simp [dropAlpha] at h
  | [a, b, c], x, h => by simp [dropAlpha] at h
  | a :: b :: c :: d :: rest, x, h => by
    simp only [dropAlpha, List.mem_cons] at h ⊢
    rcases h with rfl | rfl | rfl | h
    · tauto
    · tauto
    · tauto
    · have := mem_dropAlpha (l := rest) h
      tauto

/-- Every data value of the converted array is a cast pixel value. -/
theorem mem_toNpArr_data {img : PILImage} {q : ℚ} (h : q ∈ (toNpArr img).data) :
    ∃ v ∈ img.pixels, q = (v : ℚ) := by
  obtain ⟨mode, w, hh, px⟩ := img
  cases mode <;>
    · have h2 : q ∈ px.map (fun v : Nat => (v : ℚ)) := h
      obtain ⟨v, hv, hq⟩ := List.mem_map.mp h2
      exact ⟨v, hv, hq.symm⟩

/-! Claim theorems. -/

/-- C1: for every loaded artifact, preprocessed image tensor and uniquely
keyed class mapping, when the forward pass returns one nonempty raw row not
outrunning the mapping, the top prediction of predict_image is the argmax of
the raw output vector with ties broken by the lowest positional index (first
occurrence wins, deterministically), its label is the mapping entry at that
positional index in iteration order, and its confidence is the raw value
scaled to a percentage. -/
theorem c1_top_prediction_is_first_argmax (model : Model) (image : PILImage)
    (cm : List (String × String)) (p : List ℚ)
    (hnd : (cm.map Prod.fst).Nodup)
    (hpred : model.predictFn (preprocess_image image) = Except.ok [p])
    (hne : p ≠ []) (hlen : p.length ≤ cm.length) :
    ∃ ranked,
      predict_image model image cm =
        Except.ok ((cm.getD (npArgmax p) ("", "")).2, p.getD (npArgmax p) 0 * 100, ranked) ∧
      npArgmax p < p.length ∧
      (∀ j, j < p.length → p.getD j 0 ≤ p.getD (npArgmax p) 0) ∧
      (∀ j, p.getD j 0 = p.getD (npArgmax p) 0 → npArgmax p ≤ j) :=
  ⟨sortDesc (positionalPredictions cm p 0),
    predict_image_run model image cm p hnd hpred hne hlen,
    npArgmax_lt_length hne,
    fun j hj => getD_le_npArgmax j hj,
    fun j hj => npArgmax_le_of_getD_eq j hj⟩

/-- C1 witness: the theorem applied to the specification example scenario. -/
theorem c1_witness :
    exampleVector ≠ [] ∧ exampleVector.length ≤ exampleMapping.length ∧
    ∃ ranked,
      predict_image exampleModel exampleImage exampleMapping =
        Except.ok ((exampleMapping.getD (npArgmax exampleVector) ("", "")).2,
          exampleVector.getD (npArgmax exampleVector) 0 * 100, ranked) ∧
      npArgmax exampleVector < exampleVector.length ∧
      (∀ j, j < exampleVector.length →
        exampleVector.getD j 0 ≤ exampleVector.getD (npArgmax exampleVector) 0) ∧
      (∀ j, exampleVector.getD j 0 = exampleVector.getD (npArgmax exampleVector) 0 →
        npArgmax exampleVector ≤ j) :=
  ⟨by decide, by decide,
    c1_top_prediction_is_first_argmax exampleModel exampleImage exampleMapping exampleVector
      (by decide) rfl (by decide) (by decide)⟩

/-- C2: for every probability-like raw output row (entries nonnegative with
total at most 1) over a uniquely keyed mapping of N classes, the ranked list
returned by predict_image has exactly N entries, every confidence lies in
[0, 100], the list is sorted in non-increasing confidence order, and the
sort is stable: restricted to any single confidence value the ranked list
equals the positional (mapping iteration order) list. -/
theorem c2_ranked_list_stable_sorted (model : Model) (image : PILImage)
    (cm : List (String × String)) (p : List ℚ)
    (hnd : (cm.map Prod.fst).Nodup)
    (hpred : model.predictFn (preprocess_image image) = Except.ok [p])
    (hne : p ≠ []) (hlen : p.length = cm.length)
    (hpos : ∀ x ∈ p, 0 ≤ x) (hsum : p.sum ≤ 1) :
    ∃ top conf ranked,
      predict_image model image cm = Except.ok (top, conf, ranked) ∧
      ranked.length = cm.length ∧
      (∀ e ∈ ranked, 0 ≤ e.confidence ∧ e.confidence ≤ 100) ∧
      ranked.Pairwise (fun x y => y.confidence ≤ x.confidence) ∧
      (∀ c : ℚ, ranked.filter (fun e => decide (e.confidence = c)) =
        (positionalPredictions cm p 0).filter (fun e => decide (e.confidence = c))) := by
  refine ⟨_, _, sortDesc (positionalPredictions cm p 0),
    predict_image_run model image cm p hnd hpred hne (le_of_eq hlen), ?_, ?_, ?_, ?_⟩
  · rw [length_sortDesc, length_positionalPredictions, hlen]
  · intro e he
    obtain ⟨c, hc, hce⟩ := mem_positionalPredictions (mem_sortDesc.mp he)
    have h0 : 0 ≤ c := hpos c hc
    have h1 : c ≤ 1 := le_trans (List.single_le_sum hpos c hc) hsum
    constructor
    · rw [hce]
      exact mul_nonneg h0 (by norm_num)
    · rw [hce]
      have h2 := mul_le_mul_of_nonneg_right h1 (by norm_num : (0 : ℚ) ≤ 100)
      simpa using h2
  · exact pairwise_sortDesc _
  · intro c
    exact filter_sortDesc _ c

/-- C2 witness: the theorem applied to the specification example scenario. -/
theorem c2_witness :
    (∀ x ∈ exampleVector, 0 ≤ x) ∧ exampleVector.sum ≤ 1 ∧
    ∃ top conf ranked,
      predict_image exampleModel exampleImage exampleMapping = Except.ok (top, conf, ranked) ∧
      ranked.length = exampleMapping.length ∧
      (∀ e ∈ ranked, 0 ≤ e.confidence ∧ e.confidence ≤ 100) ∧
      ranked.Pairwise (fun x y => y.confidence ≤ x.confidence) ∧
      (∀ c : ℚ, ranked.filter (fun e => decide (e.confidence = c)) =
        (positionalPredictions exampleMapping exampleVector 0).filter
          (fun e => decide (e.confidence = c))) :=
  ⟨by norm_num [exampleVector], by norm_num [exampleVector],
    c2_ranked_list_stable_sorted exampleModel exampleImage exampleMapping exampleVector
      (by decide) rfl (by decide) (by decide) (by norm_num [exampleVector])
      (by norm_num [exampleVector])⟩

/-- C8: when the raw output row is probability-like up to epsilon (its total
is within epsilon of 1), the confidences of the ranked result produced by
predict_image total within 100 * epsilon of 100. -/
theorem c8_confidence_total_near_100 (model : Model) (image : PILImage)
    (cm : List (String × String)) (p : List ℚ) (eps : ℚ)
    (hnd : (cm.map Prod.fst).Nodup)
    (hpred : model.predictFn (preprocess_image image) = Except.ok [p])
    (hne : p ≠ []) (hlen : p.length ≤ cm.length)
    (hsum : |p.sum - 1| ≤ eps) :
    ∃ top conf ranked,
      predict_image model image cm = Except.ok (top, conf, ranked) ∧
      |(ranked.map Prediction.confidence).sum - 100| ≤ 100 * eps := by
  refine ⟨_, _, sortDesc (positionalPredictions cm p 0),
    predict_image_run model image cm p hnd hpred hne hlen, ?_⟩
  rw [sum_confidence_sortDesc, sum_confidence_positionalPredictions]
  have h1 : p.sum * 100 - 100 = (p.sum - 1) * 100 := by ring
  rw [h1, abs_mul, abs_of_nonneg (by norm_num : (0 : ℚ) ≤ 100)]
  calc |p.sum - 1| * 100 ≤ eps * 100 := mul_le_mul_of_nonneg_right hsum (by norm_num)
    _ = 100 * eps := by ring

/-- C8 witness: the theorem applied to the specification example scenario,
whose raw vector sums to exactly 1, with epsilon 0. -/
theorem c8_witness :
    |exampleVector.sum - 1| ≤ 0 ∧
    ∃ top conf ranked,
      predict_image exampleModel exampleImage exampleMapping = Except.ok (top, conf, ranked) ∧
      |(ranked.map Prediction.confidence).sum - 100| ≤ 100 * 0 :=
  ⟨by norm_num [exampleVector],
    c8_confidence_total_near_100 exampleModel exampleImage exampleMapping exampleVector 0
      (by decide) rfl (by decide) (by decide) (by norm_num [exampleVector])⟩

/-- C10: every display name of the built-in default class mapping is a key
of the static TARI_INFO catalog, and consequently, under the default
mapping, the catalog lookup on the predicted top label always succeeds for
every possible prediction — the catalog-miss branch is unreachable. -/
theorem c10_default_labels_hit_catalog (model : Model) (image : PILImage) (p : List ℚ)
    (hpred : model.predictFn (preprocess_image image) = Except.ok [p])
    (hne : p ≠ []) (hlen : p.length ≤ default_class_indices.length) :
    (∀ e ∈ default_class_indices, (dictGet TARI_INFO e.2).isSome) ∧
    ∃ t, predict_image model image default_class_indices = Except.ok t ∧
      (dictGet TARI_INFO t.1).isSome := by
  constructor
  · decide
  · have hnd : (default_class_indices.map Prod.fst).Nodup := by decide
    refine ⟨_, predict_image_run model image default_class_indices p hnd hpred hne hlen, ?_⟩
    dsimp only
    have hi : npArgmax p < default_class_indices.length :=
      lt_of_lt_of_le (npArgmax_lt_length hne) hlen
    have h5 : npArgmax p = 0 ∨ npArgmax p = 1 ∨ npArgmax p = 2 ∨
        npArgmax p = 3 ∨ npArgmax p = 4 := by
      have : npArgmax p < 5 := hi
      omega
    rcases h5 with h | h | h | h | h <;> rw [h] <;> decide

/-- C10 witness: the theorem applied to the example artifact and the default
mapping. -/
theorem c10_witness :
    (∀ e ∈ default_class_indices, (dictGet TARI_INFO e.2).isSome) ∧
    ∃ t, predict_image exampleModel exampleImage default_class_indices = Except.ok t ∧
      (dictGet TARI_INFO t.1).isSome :=
  c10_default_labels_hit_catalog exampleModel exampleImage exampleVector rfl
    (by decide) (by decide)

/-- C3 counterexample: the claim says preprocess_image expands a grayscale
(single-channel) image to 3 identical channels so that it yields a 3-channel
tensor; in the code no such expansion exists — a concrete grayscale input
keeps no channel axis at all, yielding shape (1, 224, 224) rather than any
3-channel shape (1, 224, 224, 3). -/
theorem c3_counterexample :
    (preprocess_image grayImage).shape = [1, IMG_SIZE, IMG_SIZE] ∧
    (preprocess_image grayImage).shape ≠ [1, IMG_SIZE, IMG_SIZE, 3] := by
  constructor
  · rw [preprocess_image_shape]
    rfl
  · rw [preprocess_image_shape]
    decide

/-- C3 amended: preprocess_image truncates a 4-channel (alpha) image to its
first 3 channels, so alpha images yield a 3-channel (1, 224, 224, 3) tensor;
a grayscale image, however, is not expanded: it is passed through with no
channel axis and yields a (1, 224, 224) tensor. -/
theorem c3_truncates_alpha_keeps_grayscale_flat (img : PILImage) :
    (img.mode = ColorMode.RGBA →
      (preprocess_image img).shape = [1, IMG_SIZE, IMG_SIZE, 3]) ∧
    (img.mode = ColorMode.L →
      (preprocess_image img).shape = [1, IMG_SIZE, IMG_SIZE]) := by
  constructor <;> intro hm <;> rw [preprocess_image_shape, hm] <;> decide

/-- C3 witness: the amended theorem applied to a concrete RGBA image. -/
theorem c3_witness :
    rgbaImage.mode = ColorMode.RGBA ∧
    (preprocess_image rgbaImage).shape = [1, IMG_SIZE, IMG_SIZE, 3] :=
  ⟨rfl, (c3_truncates_alpha_keeps_grayscale_flat rgbaImage).1 rfl⟩

/-- C7 counterexample: the claim promises a 4-dimensional (1, 224, 224, 3)
tensor for every decoded input image of any original dimensions; a concrete
grayscale input instead yields the 3-dimensional shape (1, 224, 224). -/
theorem c7_counterexample :
    (preprocess_image grayImage2).shape = [1, IMG_SIZE, IMG_SIZE] ∧
    (preprocess_image grayImage2).shape ≠ [1, IMG_SIZE, IMG_SIZE, 3] := by
  constructor
  · rw [preprocess_image_shape]
    rfl
  · rw [preprocess_image_shape]
    decide

/-- C7 amended: for every decoded 3-channel (RGB) or 4-channel (RGBA) input
image of any original dimensions with 8-bit pixel values, preprocess_image
resizes to the fixed 224 x 224 resolution ignoring aspect ratio, prepends a
batch dimension of size 1 — yielding the 4-dimensional shape
(1, 224, 224, 3) — and every tensor value is an integer pixel value divided
by 255, lying in [0.0, 1.0]. Grayscale inputs are excluded: they yield the
3-dimensional shape (1, 224, 224) instead. -/
theorem c7_tensor_shape_and_range (img : PILImage)
    (hmode : img.mode ≠ ColorMode.L)
    (hpix : ∀ v ∈ img.pixels, v ≤ 255) :
    (preprocess_image img).shape = [1, IMG_SIZE, IMG_SIZE, 3] ∧
    ∀ q ∈ (preprocess_image img).data, 0 ≤ q ∧ q ≤ 1 := by
  constructor
  · rw [preprocess_image_shape, if_neg hmode]
  · intro q hq
    have hr : ∀ v ∈ (img.resize IMG_SIZE IMG_SIZE).pixels, v ≤ 255 := by
      intro v hv
      rcases resize_pixel_mem hv with rfl | hv2
      · norm_num
      · exact hpix v hv2
    simp only [preprocess_image, List.mem_map] at hq
    obtain ⟨u, hu, rfl⟩ := hq
    have humem : u ∈ (toNpArr (img.resize IMG_SIZE IMG_SIZE)).data := by
      by_cases hcond :
          (toNpArr (img.resize IMG_SIZE IMG_SIZE)).shape.getLast? = some 4
      · rw [if_pos hcond] at hu
        exact mem_dropAlpha hu
      · rw [if_neg hcond] at hu
        exact hu
    obtain ⟨v, hv, rfl⟩ := mem_toNpArr_data humem
    have hv255 : (v : ℚ) ≤ 255 := by
      exact_mod_cast hr v hv
    constructor
    · exact div_nonneg (by positivity) (by norm_num)
    · rw [div_le_one (by norm_num)]
      exact hv255

/-- C7 witness: the amended theorem applied to a concrete RGB image. -/
theorem c7_witness :
    exampleImage.mode ≠ ColorMode.L ∧ (∀ v ∈ exampleImage.pixels, v ≤ 255) ∧
    ((preprocess_image exampleImage).shape = [1, IMG_SIZE, IMG_SIZE, 3] ∧
      ∀ q ∈ (preprocess_image exampleImage).data, 0 ≤ q ∧ q ≤ 1) :=
  ⟨by decide, by decide, c7_tensor_shape_and_range exampleImage (by decide) (by decide)⟩

/-- C4 counterexample: the claim says that when the primary format file is
absent but the secondary format file exists, loading succeeds via the
secondary format; in the code load_model consults only MODEL_PATH
(final_model.h5), so in a directory holding only a perfectly loadable
final_model.keras the load still returns None. -/
theorem c4_counterexample :
    dictGet kerasOnlyDir MODEL_PATH = none ∧
    (dictGet kerasOnlyDir "final_model.keras").isSome ∧
    (load_model kerasOnlyDir).1 = none := by
  refine ⟨rfl, rfl, rfl⟩

/-- C4 amended: the artifact loader consults exactly one candidate location,
MODEL_PATH (final_model.h5): whenever loading that single path fails for any
reason — the file is absent, or it exists but fails to deserialize — loading
fails with None regardless of what other files — such as a secondary-format
final_model.keras — exist; there is no multi-format fallback. -/
theorem c4_single_candidate_no_fallback (files : List (String × H5File))
    (h : dictGet files MODEL_PATH = none ∨
      ∃ f, dictGet files MODEL_PATH = some f ∧ f.loadsTo = none) :
    (load_model files).1 = none := by
  rcases h with h | ⟨f, hf, hl⟩
  · simp only [load_model, tf_load_model, h]
  · simp only [load_model, tf_load_model, hf, hl]

/-- C4 witness: the amended theorem applied both to the directory holding
only the secondary-format file (primary absent) and to the directory whose
primary file exists but fails to deserialize. -/
theorem c4_witness :
    dictGet kerasOnlyDir MODEL_PATH = none ∧
    (load_model kerasOnlyDir).1 = none ∧
    (∃ f, dictGet corruptH5Dir MODEL_PATH = some f ∧ f.loadsTo = none) ∧
    (load_model corruptH5Dir).1 = none :=
  ⟨rfl,
   c4_single_candidate_no_fallback kerasOnlyDir (Or.inl rfl),
   ⟨{ loadsTo := none }, rfl, rfl⟩,
   c4_single_candidate_no_fallback corruptH5Dir
     (Or.inr ⟨{ loadsTo := none }, rfl, rfl⟩)⟩

/-- C5 counterexample: with the mapping file absent the code does fall back
to the default mapping, but it emits no message at all — in particular no
non-fatal warning — so the claimed warning emission is false. -/
theorem c5_counterexample :
    (load_class_indices none).1 = default_class_indices ∧
    (load_class_indices none).2 = [] ∧
    ¬ ∃ s, UIMsg.warning s ∈ (load_class_indices none).2 := by
  refine ⟨rfl, rfl, ?_⟩
  rintro ⟨s, hs⟩
  simp [load_class_indices] at hs

/-- C5 amended: whenever the class mapping file is absent or unparsable,
load_class_indices returns exactly the fixed built-in mapping of 5 known
classes and emits no message whatsoever — a silent, non-error fallback that
never surfaces to the caller. -/
theorem c5_silent_default_fallback (file : ClassFile)
    (h : file = none ∨ file = some none) :
    load_class_indices file = (default_class_indices, []) ∧
    default_class_indices.length = 5 := by
  rcases h with rfl | rfl <;> exact ⟨rfl, rfl⟩

/-- C5 witness: the amended theorem applied to the absent mapping file. -/
theorem c5_witness :
    ((none : ClassFile) = none ∨ (none : ClassFile) = some none) ∧
    (load_class_indices none = (default_class_indices, []) ∧
      default_class_indices.length = 5) :=
  ⟨Or.inl rfl, c5_silent_default_fallback none (Or.inl rfl)⟩

/-- C6 counterexample: on a forward-pass error the pipeline does not return
a failure result carrying an empty ranked list — predict_image propagates
the exception and returns no result triple at all. -/
theorem c6_counterexample :
    predict_image failingModel grayImage default_class_indices =
      Except.error "Graph execution error" ∧
    ¬ ∃ r, predict_image failingModel grayImage default_class_indices = Except.ok r := by
  have h1 : predict_image failingModel grayImage default_class_indices =
      Except.error "Graph execution error" := rfl
  refine ⟨h1, ?_⟩
  rintro ⟨r, hr⟩
  rw [h1] at hr
  exact Except.noConfusion hr

/-- C6 amended: whenever the forward pass raises, predict_image propagates
exactly that exception and produces no (not even partial) result value; the
code defines no PreprocessingFailure or PredictionFailure results, so
failures surface as exceptions rather than as failure results with empty
ranked lists. -/
theorem c6_forward_error_propagates (model : Model) (image : PILImage)
    (cm : List (String × String)) (e : String)
    (h : model.predictFn (preprocess_image image) = Except.error e) :
    predict_image model image cm = Except.error e ∧
    ¬ ∃ r, predict_image model image cm = Except.ok r := by
  have h1 : predict_image model image cm = Except.error e := by
    simp only [predict_image, h]
  refine ⟨h1, ?_⟩
  rintro ⟨r, hr⟩
  rw [h1] at hr
  exact Except.noConfusion hr

/-- C6 witness: the amended theorem applied to an always-raising artifact. -/
theorem c6_witness :
    failingModel.predictFn (preprocess_image grayImage2) =
      Except.error "Graph execution error" ∧
    (predict_image failingModel grayImage2 default_class_indices =
        Except.error "Graph execution error" ∧
      ¬ ∃ r, predict_image failingModel grayImage2 default_class_indices = Except.ok r) :=
  ⟨rfl, c6_forward_error_propagates failingModel grayImage2 default_class_indices
    "Graph execution error" rfl⟩

/-- C9: whenever the model artifact cannot be found or loaded, main reports
the model as not loaded in the sidebar, refuses every classification request
(the classification page is never entered, so no prediction ever runs with
a missing artifact, uniformly over every request), and the
non-classification pages remain reachable. -/
theorem c9_unavailable_refuses_classification (files : List (String × H5File))
    (file : ClassFile) (menu : Menu)
    (h : (load_model files).1 = none) :
    (∀ m cm, (main_route files file menu).2 ≠ PageAction.classifyPage m cm) ∧
    UIMsg.error "❌ Model: Not Loaded" ∈ (main_route files file menu).1 ∧
    (menu = Menu.klasifikasi →
      (main_route files file menu).2 =
        PageAction.modelUnavailable
          "❌ Model tidak dapat dimuat. Pastikan file model tersedia.") ∧
    (menu = Menu.beranda → (main_route files file menu).2 = PageAction.homePage) ∧
    (menu = Menu.katalog → (main_route files file menu).2 = PageAction.catalogPage) ∧
    (menu = Menu.tentang → (main_route files file menu).2 = PageAction.aboutPage) := by
  cases menu <;> simp [main_route, h]

/-- C9 witness: the theorem applied to the empty directory and the
classification menu. -/
theorem c9_witness :
    (load_model emptyDir).1 = none ∧
    ((∀ m cm, (main_route emptyDir none Menu.klasifikasi).2 ≠
        PageAction.classifyPage m cm) ∧
      UIMsg.error "❌ Model: Not Loaded" ∈ (main_route emptyDir none Menu.klasifikasi).1 ∧
      (Menu.klasifikasi = Menu.klasifikasi →
        (main_route emptyDir none Menu.klasifikasi).2 =
          PageAction.modelUnavailable
            "❌ Model tidak dapat dimuat. Pastikan file model tersedia.") ∧
      (Menu.klasifikasi = Menu.beranda →
        (main_route emptyDir none Menu.klasifikasi).2 = PageAction.homePage) ∧
      (Menu.klasifikasi = Menu.katalog →
        (main_route emptyDir none Menu.klasifikasi).2 = PageAction.catalogPage) ∧
      (Menu.klasifikasi = Menu.tentang →
        (main_route emptyDir none Menu.klasifikasi).2 = PageAction.aboutPage)) :=
  ⟨rfl, c9_unavailable_refuses_classification emptyDir none Menu.klasifikasi rfl⟩

end KostumTari
